import Mathlib

/-!
Verification of the indispenso coordinator/agent core against its
specification.  The Go source (client.go, server.go, agents.go) is embedded
shallowly: structs become structures, methods become pure functions, Go maps
become association lists, and effectful inputs (UUIDs, clock readings,
configuration constants defined outside the embedded files, crypto
primitives from the Go standard library) become explicit parameters.
-/

set_option linter.unusedVariables false

namespace Indispenso

/-- Model of Go strings.Contains: sub occurs somewhere inside s. -/
def strContains (s sub : String) : Bool :=
  (List.range (s.data.length + 1)).any (fun i => sub.data.isPrefixOf (s.data.drop i))

/-- Cmd struct from client.go (third unit, lines 458-473).  All fields kept;
Go zero values are the natural Lean defaults when a constructor omits them. -/
structure Cmd where
  Command              : String
  Pending              : Bool
  Id                   : String
  ClientId             : String
  TemplateId           : String
  ConsensusRequestId   : String
  Signature            : String
  Timeout              : Int
  state                : String
  RequestUserId        : String
  Created              : Int
  ExecutionIterationId : Int
  BufOutput            : List String
  BufOutputErr         : List String
deriving Repr, DecidableEq

/-- ExecutionValidation struct from server.go lines 1647-1653. -/
structure ExecutionValidation where
  Id           : String
  Fatal        : Bool
  MustContain  : Bool
  OutputStream : Int
  Text         : String
deriving Repr, DecidableEq

/-- Modelled from the spec: the Template struct lives in a repository file
that is not part of src/ (only its callers are).  Per the spec (§3) a
template carries an ordered list of validation rules; only that field is
consumed by the embedded code (Cmd._validate, Template.AddValidationRule). -/
structure Template where
  Id              : String
  ValidationRules : List ExecutionValidation
deriving Repr, DecidableEq

/-- Modelled from the spec: the ConsensusRequest struct lives in a repository
file that is not part of src/.  The embedded code only reads its id
(RegisteredClient.AbortExecution compares cmd.ConsensusRequestId to req.Id). -/
structure ConsensusRequest where
  Id : String
deriving Repr, DecidableEq

/-- Modelled from the spec: ExecutionCoordinatorEntry lives in a repository
file that is not part of src/.  The embedded code (Cmd.IsExecution) reads its
request id and its current iteration. -/
structure ExecutionCoordinatorEntry where
  Id        : String
  iteration : Int
deriving Repr, DecidableEq

/-- Go map[string]*Cmd, modelled as an association list. -/
abbrev CmdMap := List (String × Cmd)

/-- Go map assignment m[k] = v: replace the binding if the key is present,
otherwise add it. -/
def mapSet : CmdMap → String → Cmd → CmdMap
  | [], k, v => [(k, v)]
  | (k', v') :: rest, k, v =>
      if k' == k then (k, v) :: rest else (k', v') :: mapSet rest k v

/-- RegisteredClient struct from server.go lines 100-115.  LastPing is kept
in seconds as a rational (Go stores a time.Time and compares
time.Now().Sub(LastPing).Seconds(), a float64). -/
structure RegisteredClient where
  ClientId       : String
  AuthToken      : String
  LastPing       : ℚ
  Tags           : List String
  DispatchedCmds : CmdMap
  Cmds           : CmdMap
deriving Repr, DecidableEq

/-- RegisteredClient.HasTag, server.go lines 190-203.  The Go nil-slice and
empty-slice early returns collapse to the empty-list case. -/
def RegisteredClient.HasTag (c : RegisteredClient) (s : String) : Bool :=
  if c.Tags.length == 0 then false
  else c.Tags.any (fun tag => tag == s)

/-- RegisteredClient.IsAlive, server.go lines 205-207:
time.Now().Sub(c.LastPing).Seconds() > float64(CLIENT_PING_INTERVAL*5).
CLIENT_PING_INTERVAL is configuration defined outside the embedded files and
is passed explicitly; now is the clock reading in seconds. -/
def RegisteredClient.IsAlive (CLIENT_PING_INTERVAL : Int) (now : ℚ)
    (c : RegisteredClient) : Bool :=
  now - c.LastPing > ((CLIENT_PING_INTERVAL * 5 : Int) : ℚ)

/-- RegisteredClient.Submit, server.go lines 81-97: the command is put into
both the pending map (Cmds) and the inflight map (DispatchedCmds) under the
client lock; the channel send carries no data. -/
def RegisteredClient.Submit (client : RegisteredClient) (cmd : Cmd) :
    RegisteredClient :=
  { client with
      Cmds := mapSet client.Cmds cmd.Id cmd,
      DispatchedCmds := mapSet client.DispatchedCmds cmd.Id cmd }

/-- RegisteredClient.AbortExecution, server.go lines 170-179: delete from
DispatchedCmds every command whose ConsensusRequestId equals req.Id. -/
def RegisteredClient.AbortExecution (c : RegisteredClient)
    (req : ConsensusRequest) : RegisteredClient :=
  { c with DispatchedCmds :=
      c.DispatchedCmds.filter (fun kv => !(kv.2.ConsensusRequestId == req.Id)) }

/-- The command-collecting branch of ClientCmds, server.go lines 1538-1547:
on a channel wake, every command with Pending = true in the Cmds map is
returned and its Pending flag is set to false.  Nothing is deleted from the
Cmds map.  (In Go the maps hold pointers, so the flag flip is visible through
DispatchedCmds as well; each map's view is tracked independently here, and
the code writes only through the Cmds iteration.) -/
def ClientCmdsDrain (client : RegisteredClient) :
    RegisteredClient × List Cmd :=
  let polled := (client.Cmds.filter (fun kv => kv.2.Pending)).map (fun kv => kv.2)
  ({ client with
      Cmds := client.Cmds.map
        (fun kv => (kv.1, if kv.2.Pending then { kv.2 with Pending := false } else kv.2)) },
   polled)

/-- AgentStore from agents.go lines 34-37; the agents map is modelled as the
list of its values (Go map iteration order is unspecified). -/
structure AgentStore where
  agents : List RegisteredClient
deriving Repr, DecidableEq

/-- AgentStore.Cleanup, agents.go lines 69-80: delete every agent for which
IsAlive() returns false, i.e. keep exactly the agents with IsAlive() true. -/
def AgentStore.Cleanup (CLIENT_PING_INTERVAL : Int) (now : ℚ)
    (a : AgentStore) : AgentStore :=
  { a with agents :=
      a.agents.filter (RegisteredClient.IsAlive CLIENT_PING_INTERVAL now) }

/-- AgentStore.AbortConsensusExecution, agents.go lines 130-137: call
AbortExecution(req) on every registered agent. -/
def AgentStore.AbortConsensusExecution (a : AgentStore)
    (req : ConsensusRequest) : AgentStore :=
  { a with agents := a.agents.map (fun ag => ag.AbortExecution req) }

/-- The exclusion loop of AgentStore.List, agents.go lines 101-106:
excluded is overwritten with HasTag(tag) each round and the loop breaks as
soon as it becomes true, so the result is true iff some excluded tag is
present. -/
def excludeLoop (agent : RegisteredClient) : List String → Bool
  | [] => false
  | tag :: rest => if agent.HasTag tag then true else excludeLoop agent rest

/-- The inclusion loop of AgentStore.List, agents.go lines 114-120:
match starts true and the loop breaks false on the first missing tag. -/
def includeLoop (agent : RegisteredClient) : List String → Bool
  | [] => true
  | tag :: rest => if !(agent.HasTag tag) then false else includeLoop agent rest

/-- The per-agent keep decision of AgentStore.List, agents.go lines 96-124. -/
def listKeep (includeTags excludeTags : List String)
    (agent : RegisteredClient) : Bool :=
  let excluded :=
    if excludeTags.length > 0 then excludeLoop agent excludeTags else false
  if excluded then false
  else
    let matc := includeLoop agent includeTags
    if includeTags.length > 0 && !matc then false else true

/-- AgentStore.List, agents.go lines 90-128 (named ListA because the Go name
List collides with Lean's list type). -/
def AgentStore.ListA (a : AgentStore) (includeTags excludeTags : List String) :
    List RegisteredClient :=
  a.agents.filter (listKeep includeTags excludeTags)

/-- newExecutionValidation, server.go lines 1656-1677.  The uuid produced by
the effectful generator is passed explicitly.  Note the returned struct uses
hardcoded Fatal := true, MustContain := true, OutputStream := 1 rather than
the validated caller inputs. -/
def newExecutionValidation (uuid : String) (txt : String)
    (fatal mustContain : Bool) (outputStream : Int) :
    Option ExecutionValidation :=
  if outputStream ≠ 1 ∧ outputStream ≠ 2 then none
  else if txt.length < 1 then none
  else some
    { Id := uuid
      Fatal := true
      MustContain := true
      Text := txt
      OutputStream := 1 }

/-- newCmd, client.go lines 795-812.  DEFAULT_COMMAND_TIMEOUT is
configuration defined outside the embedded files; the generated uuid and the
clock reading are passed explicitly.  Fields the Go literal omits get Go zero
values. -/
def newCmd (DEFAULT_COMMAND_TIMEOUT : Int) (uuid : String) (now : Int)
    (command : String) (timeout : Int) : Cmd :=
  let timeout := if timeout < 1 then DEFAULT_COMMAND_TIMEOUT else timeout
  { Command := command
    Pending := true
    Id := uuid
    ClientId := ""
    TemplateId := ""
    ConsensusRequestId := ""
    Signature := ""
    Timeout := timeout
    state := "pending"
    RequestUserId := ""
    Created := now
    ExecutionIterationId := 0
    BufOutput := []
    BufOutputErr := [] }

/-- The stream selection of a validation rule inside Cmd._validate,
client.go lines 531-536: stream 1 reads BufOutput, anything else reads
BufOutputErr. -/
def streamOf (c : Cmd) (v : ExecutionValidation) : List String :=
  if v.OutputStream == 1 then c.BufOutput else c.BufOutputErr

/-- The line-matching loop of Cmd._validate, client.go lines 539-545:
matched becomes true on the first buffered line containing the rule text. -/
def ruleMatches (c : Cmd) (v : ExecutionValidation) : Bool :=
  (streamOf c v).any (fun line => strContains line v.Text)

/-- The rule loop of Cmd._validate, client.go lines 528-559: returns the
failedValidation flag; the loop breaks on the first violated rule. -/
def validateRules (c : Cmd) : List ExecutionValidation → Bool
  | [] => false
  | v :: rest =>
      let matched := ruleMatches c v
      if v.MustContain == true && matched == false then true
      else if v.MustContain == false && matched == true then true
      else validateRules c rest

/-- Cmd._validate, client.go lines 514-574.  The effectful environment is
passed explicitly: conf.ServerEnabled; the result of the template-store
lookup; whether executionCoordinator.Get returned an entry.  The nested
SetState calls happen from oldState "flushed_logs" and therefore are plain
state writes.  The Bool result records whether ece.Next() was started. -/
def Cmd._validate (serverEnabled : Bool) (template : Option Template)
    (entryExists : Bool) (c : Cmd) : Cmd × Bool :=
  if !serverEnabled then (c, false)
  else
    match template with
    | none => (c, false)
    | some t =>
        if validateRules c t.ValidationRules then
          ({ c with state := "failed_validation" }, false)
        else
          ({ c with state := "finished" }, entryExists)

/-- Cmd.SetState, client.go lines 493-511.  The Bool result records whether
a next coordinator iteration was started by the validation path. -/
def Cmd.SetState (serverEnabled : Bool) (template : Option Template)
    (entryExists : Bool) (c : Cmd) (state : String) : Cmd × Bool :=
  let oldState := c.state
  let c1 : Cmd := { c with state := state }
  if oldState == "finished_execution" && c1.state == "flushed_logs" then
    Cmd._validate serverEnabled template entryExists c1
  else if oldState == "failed_execution" && c1.state == "flushed_logs" then
    ({ c1 with state := "failed" }, false)
  else
    (c1, false)

/-- Cmd.ComputeHmac, client.go lines 647-657.  The Go standard-library
primitives are passed as explicit parameters: b64decode is
base64.URLEncoding.DecodeString (none on a decode error, in which case the
Go code returns ""), hmacSha256 maps a key and a message (the mac is written
Command then Id, i.e. fed the byte concatenation Command ++ Id) to the sum,
and b64encode is base64.URLEncoding.EncodeToString. -/
def Cmd.ComputeHmac (b64decode : String → Option (List Nat))
    (hmacSha256 : List Nat → String → List Nat)
    (b64encode : List Nat → String) (c : Cmd) (token : String) : String :=
  match b64decode token with
  | none => ""
  | some key => b64encode (hmacSha256 key (c.Command ++ c.Id))

/-- The validation phase of Cmd.Execute, client.go lines 660-693: the state
goes to "validating"; with a non-nil client the recomputed HMAC must equal
the signature and the signature must be non-empty, otherwise the state goes
to "invalid_signature" and execution is aborted.  The Bool result is true
exactly when execution proceeds past the validation phase (i.e. the shell
text will be run).  NotifyServer state writes are local (conf.ServerEnabled
is false on a pure agent) and none of the states involved trigger a SetState
side branch. -/
def Cmd.ExecuteValidationPhase (b64decode : String → Option (List Nat))
    (hmacSha256 : List Nat → String → List Nat)
    (b64encode : List Nat → String) (c : Cmd)
    (clientAuthToken : Option String) : Cmd × Bool :=
  let c1 : Cmd := { c with state := "validating" }
  match clientAuthToken with
  | some tok =>
      let expectedMac := Cmd.ComputeHmac b64decode hmacSha256 b64encode c1 tok
      if expectedMac ≠ c1.Signature ∨ c1.Signature.length < 1 then
        ({ c1 with state := "invalid_signature" }, false)
      else
        (c1, true)
  | none => (c1, true)

/-- Cmd._flushLogs, client.go lines 596-622: nothing happens for an empty
signature; otherwise the buffered output and error lines are uploaded and
both buffers are cleared.  The optional result is the uploaded payload. -/
def Cmd._flushLogs (c : Cmd) : Cmd × Option (List String × List String) :=
  if c.Signature.length < 1 then (c, none)
  else
    ({ c with BufOutput := [], BufOutputErr := [] },
     some (c.BufOutput, c.BufOutputErr))

/-- Cmd._checkFlushLogs, client.go lines 588-593: flush when either buffer
holds strictly more than 10 lines. -/
def Cmd._checkFlushLogs (c : Cmd) : Cmd × Option (List String × List String) :=
  if c.BufOutput.length > 10 ∨ c.BufOutputErr.length > 10 then Cmd._flushLogs c
  else (c, none)

/-- Cmd.LogOutput, client.go lines 625-633: append then maybe flush. -/
def Cmd.LogOutput (c : Cmd) (line : String) :
    Cmd × Option (List String × List String) :=
  Cmd._checkFlushLogs { c with BufOutput := c.BufOutput ++ [line] }

/-- Cmd.LogError, client.go lines 636-644: append then maybe flush. -/
def Cmd.LogError (c : Cmd) (line : String) :
    Cmd × Option (List String × List String) :=
  Cmd._checkFlushLogs { c with BufOutputErr := c.BufOutputErr ++ [line] }

/-- The tail of Cmd.Execute, client.go lines 790-792: the final _flushLogs
followed by NotifyServer("flushed_logs") (a local SetState on the agent,
where conf.ServerEnabled is false). -/
def Cmd.ExecuteFinalFlush (c : Cmd) :
    Cmd × Option (List String × List String) :=
  let r := Cmd._flushLogs c
  ((Cmd.SetState false none false r.1 "flushed_logs").1, r.2)

/-! ## Helper lemmas -/

lemma str_length_lt_one_iff (s : String) : s.length < 1 ↔ s = "" := by
  cases s with
  | mk data =>
    simp [String.length, Nat.lt_one_iff, List.length_eq_zero]
    constructor
    · intro h; cases h; rfl
    · intro h
      have hd : ({ data := data } : String).data = ("" : String).data := by rw [h]
      simpa using hd

lemma HasTag_iff (c : RegisteredClient) (s : String) :
    c.HasTag s = true ↔ s ∈ c.Tags := by
  unfold RegisteredClient.HasTag
  cases h : (c.Tags.length == 0)
  · simp only [h, Bool.false_eq_true, if_false, List.any_eq_true, beq_iff_eq]
    constructor
    · rintro ⟨tag, hm, rfl⟩; exact hm
    · intro hm; exact ⟨s, hm, rfl⟩
  · have hlen : c.Tags.length = 0 := by simpa using h
    have hnil : c.Tags = [] := List.length_eq_zero.mp hlen
    simp [h, hnil]

lemma excludeLoop_iff (agent : RegisteredClient) (l : List String) :
    excludeLoop agent l = true ↔ ∃ t ∈ l, agent.HasTag t = true := by
  induction l with
  | nil => simp [excludeLoop]
  | cons t rest ih =>
      unfold excludeLoop
      by_cases h : agent.HasTag t
      · simp [h]
      · simp only [Bool.not_eq_true] at h
        simp [h, ih]

lemma includeLoop_iff (agent : RegisteredClient) (l : List String) :
    includeLoop agent l = true ↔ ∀ t ∈ l, agent.HasTag t = true := by
  induction l with
  | nil => simp [includeLoop]
  | cons t rest ih =>
      unfold includeLoop
      by_cases h : agent.HasTag t
      · simp [h, ih]
      · simp only [Bool.not_eq_true] at h
        simp [h]

lemma listKeep_eq (includeTags excludeTags : List String)
    (agent : RegisteredClient) :
    listKeep includeTags excludeTags agent =
      (!excludeLoop agent excludeTags && includeLoop agent includeTags) := by
  unfold listKeep
  have hex : (if excludeTags.length > 0 then excludeLoop agent excludeTags
      else false) = excludeLoop agent excludeTags := by
    cases excludeTags with
    | nil => simp [excludeLoop]
    | cons e r => simp
  rw [hex]
  cases hx : excludeLoop agent excludeTags
  · simp only [Bool.false_eq_true, if_false, Bool.not_false, Bool.true_and]
    cases hm : includeLoop agent includeTags
    · cases hin : includeTags with
      | nil => rw [hin] at hm; simp [includeLoop] at hm
      | cons t rest =>
          rw [hin] at hm
          simp [hm]
    · simp [hm]
  · simp

lemma listKeep_iff (includeTags excludeTags : List String)
    (agent : RegisteredClient) :
    listKeep includeTags excludeTags agent = true ↔
      (∀ t ∈ includeTags, agent.HasTag t = true) ∧
      (∀ t ∈ excludeTags, agent.HasTag t = false) := by
  rw [listKeep_eq]
  simp only [Bool.and_eq_true, Bool.not_eq_true']
  rw [includeLoop_iff]
  constructor
  · rintro ⟨hexl, hincl⟩
    refine ⟨hincl, fun t ht => ?_⟩
    cases hv : agent.HasTag t
    · rfl
    · exact absurd ((excludeLoop_iff agent excludeTags).mpr ⟨t, ht, hv⟩)
        (by rw [hexl]; simp)
  · rintro ⟨hincl, hexcl⟩
    refine ⟨?_, hincl⟩
    cases hv : excludeLoop agent excludeTags
    · rfl
    · obtain ⟨t, ht, htag⟩ := (excludeLoop_iff agent excludeTags).mp hv
      rw [hexcl t ht] at htag
      exact absurd htag (by simp)

/-! ## C2 -/

/-- C2: the spec says an agent is alive iff it pinged within 5 ping
intervals and the sweep removes the non-alive agents.  The code's IsAlive
has the polarity inverted: with CLIENT_PING_INTERVAL = 60, an agent whose
last ping was 0 seconds ago is reported not alive, and the cleanup sweep
deletes it from the registry. -/
theorem C2_cleanup_removes_fresh_agent :
    (RegisteredClient.IsAlive 60 0
        ⟨"a1", "", 0, [], [], []⟩ = false) ∧
      (AgentStore.Cleanup 60 0 ⟨[⟨"a1", "", 0, [], [], []⟩]⟩).agents = [] := by
  constructor
  · simp [RegisteredClient.IsAlive]
  · simp [AgentStore.Cleanup, RegisteredClient.IsAlive]

/-! ## C4 -/

/-- C4: newExecutionValidation called with fatal = false, mustContain =
false, stream = 2 returns a rule with the hardcoded values Fatal = true,
MustContain = true, OutputStream = 1, discarding the caller's inputs. -/
theorem C4_rule_uses_hardcoded_defaults :
    newExecutionValidation "u1" "x" false false 2 =
      some ⟨"u1", true, true, 1, "x"⟩ := by
  decide

/-! ## C6 -/

/-- C6: AgentStore.List(include, exclude) returns exactly the registered
agents whose tag set contains every include tag and no exclude tag; empty
lists impose no constraint (the universally quantified conjuncts are then
vacuous). -/
theorem C6_list_filters_by_tags (a : AgentStore)
    (includeTags excludeTags : List String) (ag : RegisteredClient) :
    ag ∈ a.ListA includeTags excludeTags ↔
      ag ∈ a.agents ∧ (∀ t ∈ includeTags, t ∈ ag.Tags) ∧
        (∀ t ∈ excludeTags, t ∉ ag.Tags) := by
  unfold AgentStore.ListA
  rw [List.mem_filter, listKeep_iff]
  constructor
  · rintro ⟨hmem, hincl, hexcl⟩
    refine ⟨hmem, fun t ht => (HasTag_iff ag t).mp (hincl t ht), fun t ht hx => ?_⟩
    have := (HasTag_iff ag t).mpr hx
    rw [hexcl t ht] at this
    exact Bool.false_ne_true this
  · rintro ⟨hmem, hincl, hexcl⟩
    refine ⟨hmem, fun t ht => (HasTag_iff ag t).mpr (hincl t ht), fun t ht => ?_⟩
    cases hv : ag.HasTag t
    · rfl
    · exact absurd ((HasTag_iff ag t).mp hv) (hexcl t ht)

/-! ## C10 -/

/-- C10: newCmd substitutes DEFAULT_COMMAND_TIMEOUT for any timeout below 1,
and every fresh command starts in state "pending" with Pending = true. -/
theorem C10_newCmd_defaults (d : Int) (u : String) (now : Int)
    (command : String) (timeout : Int) :
    (timeout < 1 → (newCmd d u now command timeout).Timeout = d) ∧
      (newCmd d u now command timeout).state = "pending" ∧
      (newCmd d u now command timeout).Pending = true := by
  by_cases h : timeout < 1 <;> simp [newCmd, h]

/-- Witness for C10 at DEFAULT_COMMAND_TIMEOUT = 600 and timeout = 0. -/
theorem C10_newCmd_defaults_witness :
    (newCmd 600 "u" 5 "ls" 0).Timeout = 600 ∧
      (newCmd 600 "u" 5 "ls" 0).state = "pending" ∧
      (newCmd 600 "u" 5 "ls" 0).Pending = true := by
  obtain ⟨h1, h2, h3⟩ := C10_newCmd_defaults 600 "u" 5 "ls" 0
  exact ⟨h1 (by decide), h2, h3⟩

/-! ## C1 -/

lemma ExecuteValidationPhase_eq (b64decode : String → Option (List Nat))
    (hmacSha256 : List Nat → String → List Nat)
    (b64encode : List Nat → String) (c : Cmd) (tok : String) :
    Cmd.ExecuteValidationPhase b64decode hmacSha256 b64encode c (some tok) =
      if Cmd.ComputeHmac b64decode hmacSha256 b64encode c tok ≠ c.Signature ∨
          c.Signature.length < 1
      then ({ c with state := "invalid_signature" }, false)
      else ({ c with state := "validating" }, true) := rfl

/-- C1: with a non-nil client, Cmd.Execute proceeds past the validation
phase (i.e. the shell text runs) iff the recomputed HMAC equals the
command's signature and the signature is non-empty; otherwise the command
transitions to invalid_signature and is not executed.  The crypto and
base64url primitives from the Go standard library are universally
quantified, so the property holds for any instantiation. -/
theorem C1_execute_requires_valid_signature
    (b64decode : String → Option (List Nat))
    (hmacSha256 : List Nat → String → List Nat)
    (b64encode : List Nat → String) (c : Cmd) (tok : String) :
    ((Cmd.ExecuteValidationPhase b64decode hmacSha256 b64encode c (some tok)).2 = true ↔
        (Cmd.ComputeHmac b64decode hmacSha256 b64encode c tok = c.Signature ∧
          c.Signature ≠ "")) ∧
      (Cmd.ExecuteValidationPhase b64decode hmacSha256 b64encode c (some tok)).1.state =
        (if (Cmd.ExecuteValidationPhase b64decode hmacSha256 b64encode c (some tok)).2
          then "validating" else "invalid_signature") := by
  rw [ExecuteValidationPhase_eq]
  by_cases h : Cmd.ComputeHmac b64decode hmacSha256 b64encode c tok ≠ c.Signature ∨
      c.Signature.length < 1
  · rw [if_pos h]
    simp only [Bool.false_eq_true, false_iff, if_false]
    refine ⟨?_, by simp⟩
    rintro ⟨hmac, hne⟩
    rcases h with h | h
    · exact h hmac
    · exact hne ((str_length_lt_one_iff c.Signature).mp h)
  · rw [if_neg h]
    push_neg at h
    obtain ⟨hmac, hlen⟩ := h
    refine ⟨⟨fun _ => ⟨hmac, ?_⟩, fun _ => rfl⟩, rfl⟩
    intro hempty
    have := (str_length_lt_one_iff c.Signature).mpr hempty
    omega

/-! ## C3 -/

/-- C3 counterexample: a command in state killed_execution stays in state
flushed_logs after SetState("flushed_logs"); it does not reach the terminal
state failed (only the failed_execution branch exists in SetState). -/
theorem C3_counterexample :
    (Cmd.SetState true none false
        ⟨"", false, "c1", "", "", "", "", 0, "killed_execution", "", 0, 0, [], []⟩
        "flushed_logs").1.state = "flushed_logs" ∧
      (Cmd.SetState true none false
        ⟨"", false, "c1", "", "", "", "", 0, "killed_execution", "", 0, 0, [], []⟩
        "flushed_logs").1.state ≠ "failed" := by
  decide

/-- C3 amended: SetState("flushed_logs") sends a command in state
failed_execution to the terminal state failed, but a command in state
killed_execution merely moves to state flushed_logs (SetState has no
killed_execution branch). -/
theorem C3_flushed_logs_outcome (serverEnabled : Bool)
    (template : Option Template) (entryExists : Bool) (c : Cmd) :
    (c.state = "failed_execution" →
        (Cmd.SetState serverEnabled template entryExists c "flushed_logs").1.state =
          "failed") ∧
      (c.state = "killed_execution" →
        (Cmd.SetState serverEnabled template entryExists c "flushed_logs").1.state =
          "flushed_logs") := by
  constructor
  · intro h
    simp [Cmd.SetState, h]
  · intro h
    simp [Cmd.SetState, h]

/-- Witness for C3 at a concrete failed_execution and a concrete
killed_execution command. -/
theorem C3_flushed_logs_outcome_witness :
    (Cmd.SetState true none false
        ⟨"", false, "a", "", "", "", "", 0, "failed_execution", "", 0, 0, [], []⟩
        "flushed_logs").1.state = "failed" ∧
      (Cmd.SetState true none false
        ⟨"", false, "b", "", "", "", "", 0, "killed_execution", "", 0, 0, [], []⟩
        "flushed_logs").1.state = "flushed_logs" :=
  ⟨(C3_flushed_logs_outcome true none false
      ⟨"", false, "a", "", "", "", "", 0, "failed_execution", "", 0, 0, [], []⟩).1 rfl,
   (C3_flushed_logs_outcome true none false
      ⟨"", false, "b", "", "", "", "", 0, "killed_execution", "", 0, 0, [], []⟩).2 rfl⟩

/-! ## C5 -/

lemma streamOf_eq (c : Cmd) (v : ExecutionValidation) :
    streamOf c v = if v.OutputStream = 1 then c.BufOutput else c.BufOutputErr := by
  by_cases h : v.OutputStream = 1 <;> simp [streamOf, h]

lemma validateRules_eq_any (c : Cmd) (rules : List ExecutionValidation) :
    validateRules c rules =
      rules.any (fun v => (v.MustContain && !ruleMatches c v) ||
        (!v.MustContain && ruleMatches c v)) := by
  induction rules with
  | nil => simp [validateRules]
  | cons v rest ih =>
      unfold validateRules
      cases hmc : v.MustContain <;> cases hm : ruleMatches c v <;>
        simp [hmc, hm, ih]

lemma violated_iff (c : Cmd) (v : ExecutionValidation) :
    ((v.MustContain && !ruleMatches c v) ||
        (!v.MustContain && ruleMatches c v)) = true ↔
      ((v.MustContain = true ∧
          ¬ ∃ line ∈ (if v.OutputStream = 1 then c.BufOutput else c.BufOutputErr),
            strContains line v.Text = true) ∨
        (v.MustContain = false ∧
          ∃ line ∈ (if v.OutputStream = 1 then c.BufOutput else c.BufOutputErr),
            strContains line v.Text = true)) := by
  rw [← streamOf_eq]
  have hm : ruleMatches c v = true ↔
      ∃ line ∈ streamOf c v, strContains line v.Text = true := by
    simp [ruleMatches, List.any_eq_true]
  cases hmc : v.MustContain <;> cases hx : ruleMatches c v <;>
    simp_all

lemma validateRules_state_irrel (c : Cmd) (s : String)
    (rules : List ExecutionValidation) :
    validateRules { c with state := s } rules = validateRules c rules := by
  induction rules with
  | nil => rfl
  | cons v rest ih =>
      unfold validateRules
      have : ruleMatches { c with state := s } v = ruleMatches c v := rfl
      rw [this, ih]

/-- C5: on the finished_execution to flushed_logs transition the coordinator
runs the template's rules in order; a rule matches iff its selected stream
(1 = stdout buffer, otherwise stderr buffer; all rules here have stream 1 or
2) has some buffered line containing the rule text as a substring.  The
state becomes failed_validation exactly when some rule with MustContain does
not match or some rule without MustContain matches, and otherwise finished,
in which case the coordinator entry's next iteration is started (iff the
entry exists). -/
theorem C5_flushed_logs_validation (t : Template) (entryExists : Bool)
    (c : Cmd) (hstate : c.state = "finished_execution")
    (hstreams : ∀ v ∈ t.ValidationRules,
      v.OutputStream = 1 ∨ v.OutputStream = 2) :
    ((Cmd.SetState true (some t) entryExists c "flushed_logs").1.state =
        "failed_validation" ∨
      (Cmd.SetState true (some t) entryExists c "flushed_logs").1.state =
        "finished") ∧
      ((Cmd.SetState true (some t) entryExists c "flushed_logs").1.state =
          "failed_validation" ↔
        ∃ v ∈ t.ValidationRules,
          (v.MustContain = true ∧
            ¬ ∃ line ∈ (if v.OutputStream = 1 then c.BufOutput else c.BufOutputErr),
              strContains line v.Text = true) ∨
          (v.MustContain = false ∧
            ∃ line ∈ (if v.OutputStream = 1 then c.BufOutput else c.BufOutputErr),
              strContains line v.Text = true)) ∧
      ((Cmd.SetState true (some t) entryExists c "flushed_logs").2 = true ↔
        (entryExists = true ∧
          (Cmd.SetState true (some t) entryExists c "flushed_logs").1.state =
            "finished")) := by
  have hset : Cmd.SetState true (some t) entryExists c "flushed_logs" =
      Cmd._validate true (some t) entryExists { c with state := "flushed_logs" } := by
    simp [Cmd.SetState, hstate]
  have hval : Cmd._validate true (some t) entryExists
      { c with state := "flushed_logs" } =
      if validateRules { c with state := "flushed_logs" } t.ValidationRules
      then ({ c with state := "failed_validation" }, false)
      else ({ c with state := "finished" }, entryExists) := rfl
  rw [hset, hval, validateRules_state_irrel]
  have hchar : validateRules c t.ValidationRules = true ↔
      ∃ v ∈ t.ValidationRules,
        (v.MustContain = true ∧
          ¬ ∃ line ∈ (if v.OutputStream = 1 then c.BufOutput else c.BufOutputErr),
            strContains line v.Text = true) ∨
        (v.MustContain = false ∧
          ∃ line ∈ (if v.OutputStream = 1 then c.BufOutput else c.BufOutputErr),
            strContains line v.Text = true) := by
    rw [validateRules_eq_any, List.any_eq_true]
    constructor
    · rintro ⟨v, hv, hb⟩
      exact ⟨v, hv, (violated_iff c v).mp hb⟩
    · rintro ⟨v, hv, hb⟩
      exact ⟨v, hv, (violated_iff c v).mpr hb⟩
  cases hvr : validateRules c t.ValidationRules
  · rw [hvr] at hchar
    simp only [Bool.false_eq_true, if_false]
    refine ⟨Or.inr trivial, ?_, ?_⟩
    · simpa using hchar
    · simp
  · rw [hvr] at hchar
    simp only [if_true]
    refine ⟨Or.inl trivial, ?_, ?_⟩
    · simpa using hchar
    · simp

/-- Witness for C5: a single must-contain rule on stream 1 whose text occurs
in the stdout buffer, so validation passes, the state becomes finished and
the next iteration is started. -/
theorem C5_flushed_logs_validation_witness :
    ((Cmd.SetState true (some ⟨"t1", [⟨"r1", true, true, 1, "ok"⟩]⟩) true
          ⟨"", false, "c1", "", "t1", "", "sig", 0, "finished_execution", "",
            0, 0, ["all ok"], []⟩ "flushed_logs").1.state =
        "failed_validation" ∨
      (Cmd.SetState true (some ⟨"t1", [⟨"r1", true, true, 1, "ok"⟩]⟩) true
          ⟨"", false, "c1", "", "t1", "", "sig", 0, "finished_execution", "",
            0, 0, ["all ok"], []⟩ "flushed_logs").1.state = "finished") ∧
      ((Cmd.SetState true (some ⟨"t1", [⟨"r1", true, true, 1, "ok"⟩]⟩) true
          ⟨"", false, "c1", "", "t1", "", "sig", 0, "finished_execution", "",
            0, 0, ["all ok"], []⟩ "flushed_logs").1.state =
          "failed_validation" ↔
        ∃ v ∈ ([⟨"r1", true, true, 1, "ok"⟩] : List ExecutionValidation),
          (v.MustContain = true ∧
            ¬ ∃ line ∈ (if v.OutputStream = 1 then (["all ok"] : List String)
                else ([] : List String)),
              strContains line v.Text = true) ∨
          (v.MustContain = false ∧
            ∃ line ∈ (if v.OutputStream = 1 then (["all ok"] : List String)
                else ([] : List String)),
              strContains line v.Text = true)) ∧
      ((Cmd.SetState true (some ⟨"t1", [⟨"r1", true, true, 1, "ok"⟩]⟩) true
          ⟨"", false, "c1", "", "t1", "", "sig", 0, "finished_execution", "",
            0, 0, ["all ok"], []⟩ "flushed_logs").2 = true ↔
        (true = true ∧
          (Cmd.SetState true (some ⟨"t1", [⟨"r1", true, true, 1, "ok"⟩]⟩) true
            ⟨"", false, "c1", "", "t1", "", "sig", 0, "finished_execution", "",
              0, 0, ["all ok"], []⟩ "flushed_logs").1.state = "finished")) :=
  C5_flushed_logs_validation ⟨"t1", [⟨"r1", true, true, 1, "ok"⟩]⟩ true
    ⟨"", false, "c1", "", "t1", "", "sig", 0, "finished_execution", "",
      0, 0, ["all ok"], []⟩ rfl (by intro v hv; simp at hv; simp [hv])

/-! ## Association-list lemmas for the Go map model -/

lemma lookup_mapSet_self (m : CmdMap) (k : String) (v : Cmd) :
    (mapSet m k v).lookup k = some v := by
  induction m with
  | nil => simp [mapSet, List.lookup]
  | cons kv rest ih =>
      obtain ⟨k', v'⟩ := kv
      unfold mapSet
      by_cases h : (k' == k) = true
      · simp only [h, if_true, List.lookup]
        simp
      · simp only [h, Bool.false_eq_true, if_false, List.lookup]
        have hne : (k == k') = false := by
          simp only [beq_eq_false_iff_ne, ne_eq]
          intro hx
          exact absurd (by simp [hx]) h
        simp [hne, ih]

lemma mem_mapSet_self (m : CmdMap) (k : String) (v : Cmd) :
    (k, v) ∈ mapSet m k v := by
  induction m with
  | nil => simp [mapSet]
  | cons kv rest ih =>
      obtain ⟨k', v'⟩ := kv
      unfold mapSet
      by_cases h : (k' == k) = true <;> simp [h, ih]

lemma lookup_mapValues (m : CmdMap) (f : Cmd → Cmd) (k : String) :
    (m.map (fun kv => (kv.1, f kv.2))).lookup k = (m.lookup k).map f := by
  induction m with
  | nil => simp
  | cons kv rest ih =>
      obtain ⟨k', v'⟩ := kv
      by_cases h : (k == k') = true <;> simp [List.lookup, h, ih]

/-! ## C7 -/

/-- C7 counterexample: after Submit and a long-poll drain, the drained
command is still present in the pending map (Cmds) — only its Pending flag
was flipped — contradicting the claim that it is removed from the pending
map. -/
theorem C7_counterexample :
    (ClientCmdsDrain (RegisteredClient.Submit ⟨"cl1", "", 0, [], [], []⟩
        ⟨"echo hi", true, "c1", "", "", "", "sig", 5, "pending", "", 0, 0, [], []⟩)).2 =
      [⟨"echo hi", true, "c1", "", "", "", "sig", 5, "pending", "", 0, 0, [], []⟩] ∧
      (ClientCmdsDrain (RegisteredClient.Submit ⟨"cl1", "", 0, [], [], []⟩
          ⟨"echo hi", true, "c1", "", "", "", "sig", 5, "pending", "", 0, 0, [], []⟩)).1.Cmds.lookup
        "c1" =
        some ⟨"echo hi", false, "c1", "", "", "", "sig", 5, "pending", "", 0, 0, [], []⟩ := by
  decide

/-- C7 amended: Submit places the command in both the pending map (Cmds) and
the inflight map (DispatchedCmds); after a long-poll drain returns it, its
entry remains in the pending map with the Pending flag set to false (it is
not removed), and its inflight entry remains unchanged. -/
theorem C7_submit_then_drain (client : RegisteredClient) (cmd : Cmd)
    (hp : cmd.Pending = true) :
    (RegisteredClient.Submit client cmd).Cmds.lookup cmd.Id = some cmd ∧
      (RegisteredClient.Submit client cmd).DispatchedCmds.lookup cmd.Id =
        some cmd ∧
      cmd ∈ (ClientCmdsDrain (RegisteredClient.Submit client cmd)).2 ∧
      (ClientCmdsDrain (RegisteredClient.Submit client cmd)).1.Cmds.lookup cmd.Id =
        some { cmd with Pending := false } ∧
      (ClientCmdsDrain
          (RegisteredClient.Submit client cmd)).1.DispatchedCmds.lookup cmd.Id =
        some cmd := by
  refine ⟨lookup_mapSet_self _ _ _, lookup_mapSet_self _ _ _, ?_, ?_, ?_⟩
  · show cmd ∈ ((mapSet client.Cmds cmd.Id cmd).filter
      (fun kv => kv.2.Pending)).map (fun kv => kv.2)
    refine List.mem_map.mpr ⟨(cmd.Id, cmd), ?_, rfl⟩
    exact List.mem_filter.mpr ⟨mem_mapSet_self _ _ _, by simpa using hp⟩
  · show ((mapSet client.Cmds cmd.Id cmd).map
        (fun kv => (kv.1, if kv.2.Pending then { kv.2 with Pending := false }
          else kv.2))).lookup cmd.Id = some { cmd with Pending := false }
    rw [lookup_mapValues (mapSet client.Cmds cmd.Id cmd)
      (fun c => if c.Pending then { c with Pending := false } else c) cmd.Id,
      lookup_mapSet_self]
    simp [hp]
  · show (mapSet client.DispatchedCmds cmd.Id cmd).lookup cmd.Id = some cmd
    exact lookup_mapSet_self _ _ _

/-- Witness for C7 at a concrete client and command. -/
theorem C7_submit_then_drain_witness :
    (⟨"echo", true, "w1", "", "", "", "s", 5, "pending", "", 0, 0, [], []⟩ :
        Cmd).Pending = true ∧
      ((RegisteredClient.Submit ⟨"clw", "", 0, [], [], []⟩
            ⟨"echo", true, "w1", "", "", "", "s", 5, "pending", "", 0, 0, [], []⟩).Cmds.lookup
          "w1" =
          some ⟨"echo", true, "w1", "", "", "", "s", 5, "pending", "", 0, 0, [], []⟩ ∧
        (RegisteredClient.Submit ⟨"clw", "", 0, [], [], []⟩
              ⟨"echo", true, "w1", "", "", "", "s", 5, "pending", "", 0, 0, [],
                []⟩).DispatchedCmds.lookup "w1" =
          some ⟨"echo", true, "w1", "", "", "", "s", 5, "pending", "", 0, 0, [], []⟩ ∧
        (⟨"echo", true, "w1", "", "", "", "s", 5, "pending", "", 0, 0, [], []⟩ : Cmd) ∈
          (ClientCmdsDrain (RegisteredClient.Submit ⟨"clw", "", 0, [], [], []⟩
            ⟨"echo", true, "w1", "", "", "", "s", 5, "pending", "", 0, 0, [], []⟩)).2 ∧
        (ClientCmdsDrain (RegisteredClient.Submit ⟨"clw", "", 0, [], [], []⟩
              ⟨"echo", true, "w1", "", "", "", "s", 5, "pending", "", 0, 0, [],
                []⟩)).1.Cmds.lookup "w1" =
          some ⟨"echo", false, "w1", "", "", "", "s", 5, "pending", "", 0, 0, [], []⟩ ∧
        (ClientCmdsDrain (RegisteredClient.Submit ⟨"clw", "", 0, [], [], []⟩
              ⟨"echo", true, "w1", "", "", "", "s", 5, "pending", "", 0, 0, [],
                []⟩)).1.DispatchedCmds.lookup "w1" =
          some ⟨"echo", true, "w1", "", "", "", "s", 5, "pending", "", 0, 0, [], []⟩) :=
  ⟨rfl, C7_submit_then_drain ⟨"clw", "", 0, [], [], []⟩
    ⟨"echo", true, "w1", "", "", "", "s", 5, "pending", "", 0, 0, [], []⟩ rfl⟩

/-! ## C8 -/

/-- C8: AbortExecution removes from the inflight map exactly the commands
whose ConsensusRequestId equals the request's id, leaves every other command
in place, does not touch the pending map, and the store-level broadcast
applies AbortExecution to every registered agent. -/
theorem C8_abort_removes_matching (client : RegisteredClient)
    (req : ConsensusRequest) (k : String) (cmd : Cmd) (a : AgentStore)
    (i : Nat) (hi : i < a.agents.length) :
    ((k, cmd) ∈ (client.AbortExecution req).DispatchedCmds ↔
        (k, cmd) ∈ client.DispatchedCmds ∧ cmd.ConsensusRequestId ≠ req.Id) ∧
      (client.AbortExecution req).Cmds = client.Cmds ∧
      (a.AbortConsensusExecution req).agents.get
          ⟨i, by simpa [AgentStore.AbortConsensusExecution] using hi⟩ =
        (a.agents.get ⟨i, hi⟩).AbortExecution req := by
  refine ⟨?_, rfl, ?_⟩
  · show (k, cmd) ∈ client.DispatchedCmds.filter
      (fun kv => !(kv.2.ConsensusRequestId == req.Id)) ↔ _
    rw [List.mem_filter]
    simp
  · simp [AgentStore.AbortConsensusExecution]

/-- Witness for C8: one agent holding one matching and one non-matching
inflight command; index 0 is within bounds. -/
theorem C8_abort_removes_matching_witness :
    (("k2", ⟨"c", false, "k2", "", "", "other", "", 0, "s", "", 0, 0, [], []⟩) ∈
        (RegisteredClient.AbortExecution
          ⟨"ag", "", 0, [],
            [("k1", ⟨"c", false, "k1", "", "", "r1", "", 0, "s", "", 0, 0, [], []⟩),
              ("k2", ⟨"c", false, "k2", "", "", "other", "", 0, "s", "", 0, 0, [], []⟩)],
            []⟩ ⟨"r1"⟩).DispatchedCmds ↔
        ("k2", ⟨"c", false, "k2", "", "", "other", "", 0, "s", "", 0, 0, [], []⟩) ∈
          ([("k1", ⟨"c", false, "k1", "", "", "r1", "", 0, "s", "", 0, 0, [], []⟩),
            ("k2", ⟨"c", false, "k2", "", "", "other", "", 0, "s", "", 0, 0, [], []⟩)] :
            CmdMap) ∧
          ("other" : String) ≠ "r1") ∧
      (RegisteredClient.AbortExecution
          ⟨"ag", "", 0, [],
            [("k1", ⟨"c", false, "k1", "", "", "r1", "", 0, "s", "", 0, 0, [], []⟩),
              ("k2", ⟨"c", false, "k2", "", "", "other", "", 0, "s", "", 0, 0, [], []⟩)],
            []⟩ ⟨"r1"⟩).Cmds =
        (⟨"ag", "", 0, [],
          [("k1", ⟨"c", false, "k1", "", "", "r1", "", 0, "s", "", 0, 0, [], []⟩),
            ("k2", ⟨"c", false, "k2", "", "", "other", "", 0, "s", "", 0, 0, [], []⟩)],
          []⟩ : RegisteredClient).Cmds ∧
      (AgentStore.AbortConsensusExecution
          ⟨[⟨"ag", "", 0, [],
            [("k1", ⟨"c", false, "k1", "", "", "r1", "", 0, "s", "", 0, 0, [], []⟩),
              ("k2", ⟨"c", false, "k2", "", "", "other", "", 0, "s", "", 0, 0, [], []⟩)],
            []⟩]⟩ ⟨"r1"⟩).agents.get
          ⟨0, by simp [AgentStore.AbortConsensusExecution]⟩ =
        (RegisteredClient.AbortExecution
          ⟨"ag", "", 0, [],
            [("k1", ⟨"c", false, "k1", "", "", "r1", "", 0, "s", "", 0, 0, [], []⟩),
              ("k2", ⟨"c", false, "k2", "", "", "other", "", 0, "s", "", 0, 0, [], []⟩)],
            []⟩ ⟨"r1"⟩) := by
  have h := C8_abort_removes_matching
    ⟨"ag", "", 0, [],
      [("k1", ⟨"c", false, "k1", "", "", "r1", "", 0, "s", "", 0, 0, [], []⟩),
        ("k2", ⟨"c", false, "k2", "", "", "other", "", 0, "s", "", 0, 0, [], []⟩)],
      []⟩ ⟨"r1"⟩ "k2" ⟨"c", false, "k2", "", "", "other", "", 0, "s", "", 0, 0, [], []⟩
    ⟨[⟨"ag", "", 0, [],
      [("k1", ⟨"c", false, "k1", "", "", "r1", "", 0, "s", "", 0, 0, [], []⟩),
        ("k2", ⟨"c", false, "k2", "", "", "other", "", 0, "s", "", 0, 0, [], []⟩)],
      []⟩]⟩ 0 (by decide)
  exact ⟨h.1, h.2.1, h.2.2⟩

/-! ## C9 -/

/-- C9 counterexample: a signed command whose stdout buffer reaches exactly
10 lines after the append does not upload (the code requires strictly more
than 10 buffered lines), contradicting the claimed threshold of 10 or more. -/
theorem C9_counterexample :
    (Cmd.LogOutput
        ⟨"", false, "c9", "", "", "", "sig", 0, "started_execution", "", 0, 0,
          ["1", "2", "3", "4", "5", "6", "7", "8", "9"], []⟩ "10").2 = none ∧
      (Cmd.LogOutput
        ⟨"", false, "c9", "", "", "", "sig", 0, "started_execution", "", 0, 0,
          ["1", "2", "3", "4", "5", "6", "7", "8", "9"], []⟩ "10").1.BufOutput.length =
        10 ∧
      (⟨"", false, "c9", "", "", "", "sig", 0, "started_execution", "", 0, 0,
        ["1", "2", "3", "4", "5", "6", "7", "8", "9"], []⟩ : Cmd).Signature ≠ "" := by
  decide

/-- C9 amended: for a command with a non-empty signature, appending a line
triggers an upload exactly when the append leaves a buffer with strictly
more than 10 lines (at least 11), both buffers are cleared after each
upload, a final upload of both buffers occurs before the flushed_logs
transition, and a command with an empty signature never uploads. -/
theorem C9_log_flush_behaviour (c : Cmd) (line : String)
    (h : c.Signature ≠ "") :
    ((Cmd.LogOutput c line).2.isSome = true ↔
        (c.BufOutput.length + 1 > 10 ∨ c.BufOutputErr.length > 10)) ∧
      (∀ p, (Cmd.LogOutput c line).2 = some p →
        (Cmd.LogOutput c line).1.BufOutput = [] ∧
          (Cmd.LogOutput c line).1.BufOutputErr = []) ∧
      ((Cmd.LogError c line).2.isSome = true ↔
        (c.BufOutput.length > 10 ∨ c.BufOutputErr.length + 1 > 10)) ∧
      (∀ p, (Cmd.LogError c line).2 = some p →
        (Cmd.LogError c line).1.BufOutput = [] ∧
          (Cmd.LogError c line).1.BufOutputErr = []) ∧
      (Cmd.ExecuteFinalFlush c).2 = some (c.BufOutput, c.BufOutputErr) ∧
      (∀ d : Cmd, d.Signature = "" →
        (Cmd.LogOutput d line).2 = none ∧ (Cmd.LogError d line).2 = none ∧
          (Cmd.ExecuteFinalFlush d).2 = none) := by
  have hlen : ¬(c.Signature.length < 1) := fun hl =>
    h ((str_length_lt_one_iff _).mp hl)
  refine ⟨?_, ?_, ?_, ?_, ?_, ?_⟩
  · simp only [Cmd.LogOutput, Cmd._checkFlushLogs, Cmd._flushLogs,
      List.length_append, List.length_cons, List.length_nil, Nat.zero_add]
    by_cases h10 : c.BufOutput.length + 1 > 10 ∨ c.BufOutputErr.length > 10
    · rw [if_pos h10, if_neg hlen]
      simpa using h10
    · rw [if_neg h10]
      simpa using h10
  · intro p hp
    simp only [Cmd.LogOutput, Cmd._checkFlushLogs, Cmd._flushLogs,
      List.length_append, List.length_cons, List.length_nil, Nat.zero_add] at hp ⊢
    by_cases h10 : c.BufOutput.length + 1 > 10 ∨ c.BufOutputErr.length > 10
    · rw [if_pos h10, if_neg hlen] at hp ⊢
      simp
    · rw [if_neg h10] at hp
      simp at hp
  · simp only [Cmd.LogError, Cmd._checkFlushLogs, Cmd._flushLogs,
      List.length_append, List.length_cons, List.length_nil, Nat.zero_add]
    by_cases h10 : c.BufOutput.length > 10 ∨ c.BufOutputErr.length + 1 > 10
    · rw [if_pos h10, if_neg hlen]
      simpa using h10
    · rw [if_neg h10]
      simpa using h10
  · intro p hp
    simp only [Cmd.LogError, Cmd._checkFlushLogs, Cmd._flushLogs,
      List.length_append, List.length_cons, List.length_nil, Nat.zero_add] at hp ⊢
    by_cases h10 : c.BufOutput.length > 10 ∨ c.BufOutputErr.length + 1 > 10
    · rw [if_pos h10, if_neg hlen] at hp ⊢
      simp
    · rw [if_neg h10] at hp
      simp at hp
  · simp only [Cmd.ExecuteFinalFlush, Cmd._flushLogs]
    rw [if_neg hlen]
  · intro d hd
    have hdl : d.Signature.length < 1 := (str_length_lt_one_iff _).mpr hd
    refine ⟨?_, ?_, ?_⟩
    · simp only [Cmd.LogOutput, Cmd._checkFlushLogs, Cmd._flushLogs]
      split <;> rfl
    · simp only [Cmd.LogError, Cmd._checkFlushLogs, Cmd._flushLogs]
      split <;> rfl
    · simp only [Cmd.ExecuteFinalFlush, Cmd._flushLogs]
      rw [if_pos hdl]

/-- Witness for C9: a signed command with 10 buffered stdout lines uploads
on the next appended line. -/
theorem C9_log_flush_behaviour_witness :
    (⟨"", false, "w9", "", "", "", "sig", 0, "started_execution", "", 0, 0,
        ["1", "2", "3", "4", "5", "6", "7", "8", "9", "10"], []⟩ : Cmd).Signature ≠
        "" ∧
      ((Cmd.LogOutput
          ⟨"", false, "w9", "", "", "", "sig", 0, "started_execution", "", 0, 0,
            ["1", "2", "3", "4", "5", "6", "7", "8", "9", "10"], []⟩ "11").2.isSome =
          true ↔
        ((["1", "2", "3", "4", "5", "6", "7", "8", "9", "10"] :
            List String).length + 1 > 10 ∨
          ([] : List String).length > 10)) :=
  ⟨by decide,
   (C9_log_flush_behaviour
      ⟨"", false, "w9", "", "", "", "sig", 0, "started_execution", "", 0, 0,
        ["1", "2", "3", "4", "5", "6", "7", "8", "9", "10"], []⟩ "11"
      (by decide)).1⟩

end Indispenso
